import Mathlib

/-
A shallow embedding of the `flurry` pinned-view adapter (`src/set_ref.rs`,
the `HashSetRef` type) together with a model of the concurrent `HashSet`
core it delegates to.  The core engine itself is not part of the available
sources, so its operations are modelled from the specification's operation
contract (§4.4 and §6 of the design document): the set's logical content is
a duplicate-free list of elements, guards are epoch tokens, and every
guarded operation takes an explicit guard argument as in the contract
`contains(key, guard)`, `insert(key, value, guard)`, and so on.  Shared
`&HashSet` references are modelled by a store mapping object ids to set
objects, so that several pinned views of one set observe the same state.
-/

namespace Flurry

/-- An epoch guard token, as handed out by `pin()` / `HashSet::guard()`.
The `id` is the creation stamp: a guard created later carries a larger id. -/
structure Guard where
  id : Nat
deriving DecidableEq

/-- Guard cloning (`flize::Shield::clone`): the clone protects the same
epoch, modelled as the identical token. -/
def Guard.clone (g : Guard) : Guard := g

/-- Model of the `Keys` iterator handed out by `HashSet::iter`: the list of
elements still to be yielded.  Consumption is destructive: `next` removes
the yielded element, so an exhausted iterator cannot be restarted. -/
structure Keys (α : Type) where
  remaining : List α
deriving DecidableEq

/-- One step of the iterator: yield the next element and the shrunken
iterator, or `none` once exhausted. -/
def Keys.next {α : Type} : Keys α → Option (α × Keys α)
  | ⟨[]⟩ => none
  | ⟨x :: xs⟩ => some (x, ⟨xs⟩)

/-- The full sequence of elements the iterator will yield by repeated
`next` calls. -/
def Keys.toList {α : Type} (k : Keys α) : List α := k.remaining

/-- Modelled from the spec: the concurrent `HashSet` core object (the core
engine is not among the available sources).  `elems` is the logical content
— §3: "a bin never contains duplicate keys; at most one Node per key" —,
`cap` the capacity hint touched by `reserve`, and `nextGuard` the id the
next guard created for this set will carry (every guard previously handed
out for this set has a smaller id). -/
structure HashSet (α : Type) where
  elems : List α
  cap : Nat
  nextGuard : Nat

/-- A heap of `HashSet` objects addressed by id; models shared `&HashSet`
references, so that several views of one set observe the same state. -/
abbrev Store (α : Type) := Nat → HashSet α

/-- Point update of the store at one object id. -/
def Store.update {α : Type} (st : Store α) (i : Nat) (s : HashSet α) : Store α :=
  fun j => if j = i then s else st j

namespace HashSet

variable {α : Type} [DecidableEq α]

/-- Modelled from the spec: `HashSet::guard()` / `pin()` — "the sole entry
point for acquiring the epoch token"; creates a fresh guard, whose id is
the set's current `nextGuard` stamp. -/
def guard (s : HashSet α) : Guard := ⟨s.nextGuard⟩

/-- Modelled from the spec: `len() -> integer` (takes no guard). -/
def len (s : HashSet α) : Nat := s.elems.length

/-- Modelled from the spec: `is_empty() -> bool` (takes no guard). -/
def is_empty (s : HashSet α) : Bool := s.elems.isEmpty

/-- Modelled from the spec: `contains(key, guard) -> bool`. -/
def contains (s : HashSet α) (v : α) (g : Guard) : Bool := decide (v ∈ s.elems)

/-- Modelled from the spec: `get(key, guard) -> optional reference` — the
stored element equal to the queried value, if any. -/
def get (s : HashSet α) (v : α) (g : Guard) : Option α :=
  s.elems.find? fun x => decide (x = v)

/-- Modelled from the spec: `insert(key, value, guard)` — for the set
adapter the result is the previous-absence indication: `true` iff the
value was not yet present; an already-present value leaves the set
unchanged. -/
def insert (s : HashSet α) (v : α) (g : Guard) : Bool × HashSet α :=
  if v ∈ s.elems then (false, s) else (true, { s with elems := v :: s.elems })

/-- Modelled from the spec: `remove(key, guard)` — "Locate Node,
conditionally unlink it from its bin"; returns the previous-presence
indication. -/
def remove (s : HashSet α) (v : α) (g : Guard) : Bool × HashSet α :=
  if v ∈ s.elems then (true, { s with elems := s.elems.erase v }) else (false, s)

/-- Modelled from the spec: `take(key, guard) -> optional
removed-with-reference` — unlink and hand back the stored element equal to
the queried value, if any. -/
def take (s : HashSet α) (v : α) (g : Guard) : Option α × HashSet α :=
  match s.elems.find? (fun x => decide (x = v)) with
  | some x => (some x, { s with elems := s.elems.erase v })
  | none => (none, s)

/-- Modelled from the spec: `retain(predicate, guard)` — unlink the nodes
failing the predicate. -/
def retain (s : HashSet α) (f : α → Bool) (g : Guard) : HashSet α :=
  { s with elems := s.elems.filter f }

/-- Modelled from the spec: `clear(guard)` — remove all elements. -/
def clear (s : HashSet α) (g : Guard) : HashSet α := { s with elems := [] }

/-- Modelled from the spec: `reserve(additional, guard)` — a capacity hint
for at least `additional` further elements; the content is untouched. -/
def reserve (s : HashSet α) (additional : Nat) (g : Guard) : HashSet α :=
  { s with cap := max s.cap (s.elems.length + additional) }

/-- Modelled from the spec: `iterate(guard) -> lazy sequence of entries`,
finite, over the state visible to that guard. -/
def iter (s : HashSet α) (g : Guard) : Keys α := ⟨s.elems⟩

/-- Modelled from the spec: guarded pairwise `disjoint(other, guard_self,
guard_other)` — entries of `s` are iterated under its guard, membership
checked against `other` under the other guard. -/
def guarded_disjoint (s other : HashSet α) (g1 g2 : Guard) : Bool :=
  s.elems.all fun x => !(decide (x ∈ other.elems))

/-- Modelled from the spec: guarded pairwise `subset(other, guard_self,
guard_other)`. -/
def guarded_subset (s other : HashSet α) (g1 g2 : Guard) : Bool :=
  s.elems.all fun x => decide (x ∈ other.elems)

/-- Modelled from the spec: guarded pairwise `superset(other, guard_self,
guard_other)`. -/
def guarded_superset (s other : HashSet α) (g1 g2 : Guard) : Bool :=
  guarded_subset other s g2 g1

/-- Modelled from the spec: guarded pairwise `equal(other, guard_self,
guard_other)` — mutual containment. -/
def guarded_eq (s other : HashSet α) (g1 g2 : Guard) : Bool :=
  guarded_subset s other g1 g2 && guarded_subset other s g2 g1

/-- Modelled from the spec: the `HashSet == HashSet` comparison (`PartialEq`
for the bare set, not among the available sources): per §4.4, for bulk
comparisons "Each side acquires a guard", through the sole entry point
`pin()`; so each side creates a fresh guard and `guarded_eq` runs under
the two fresh guards. -/
def eqSet (s other : HashSet α) : Bool :=
  s.guarded_eq other s.guard other.guard

/-- The pair of guards that the evaluation of `HashSet == HashSet` passes
to `guarded_eq`: the two freshly created ones. -/
def eqSetGuards (s other : HashSet α) : Guard × Guard :=
  (s.guard, other.guard)

end HashSet

/-- The pinned view from `src/set_ref.rs`: it holds the reference to the
set (`set`, an object id into the store) and the guard acquired at `pin`
time. -/
structure HashSetRef (α : Type) where
  set : Nat
  guard : Guard
deriving DecidableEq

/-- `HashSet::pin` (`src/set_ref.rs` lines 23–28): create the view holding
`self.guard()` and the set reference; creating the guard advances the
set's guard stamp, so the held guard's id is below the set's next one. -/
def HashSet.pin {α : Type} (st : Store α) (i : Nat) : HashSetRef α × Store α :=
  (⟨i, (st i).guard⟩, Store.update st i { st i with nextGuard := (st i).nextGuard + 1 })

namespace HashSetRef

variable {α : Type} [DecidableEq α]

/-- `HashSetRef::len`: `self.set.len()`. -/
def len (st : Store α) (r : HashSetRef α) : Nat := (st r.set).len

/-- `HashSetRef::is_empty`: `self.set.is_empty()`. -/
def is_empty (st : Store α) (r : HashSetRef α) : Bool := (st r.set).is_empty

/-- `HashSetRef::iter`: `self.set.iter(&self.guard)`. -/
def iter (st : Store α) (r : HashSetRef α) : Keys α := (st r.set).iter r.guard

/-- `IntoIterator for &HashSetRef`: `self.set.iter(&self.guard)`. -/
def into_iter (st : Store α) (r : HashSetRef α) : Keys α := (st r.set).iter r.guard

/-- `HashSetRef::contains`: `self.set.contains(value, &self.guard)`. -/
def contains (st : Store α) (r : HashSetRef α) (v : α) : Bool :=
  (st r.set).contains v r.guard

/-- `HashSetRef::get`: `self.set.get(value, &self.guard)`. -/
def get (st : Store α) (r : HashSetRef α) (v : α) : Option α :=
  (st r.set).get v r.guard

/-- `HashSetRef::is_disjoint`: `self.set.guarded_disjoint(other.set,
&self.guard, &other.guard)`. -/
def is_disjoint (st : Store α) (r other : HashSetRef α) : Bool :=
  (st r.set).guarded_disjoint (st other.set) r.guard other.guard

/-- `HashSetRef::is_subset`: `self.set.guarded_subset(other.set,
&self.guard, &other.guard)`. -/
def is_subset (st : Store α) (r other : HashSetRef α) : Bool :=
  (st r.set).guarded_subset (st other.set) r.guard other.guard

/-- `HashSetRef::is_superset`: `self.set.guarded_superset(other.set,
&self.guard, &other.guard)`. -/
def is_superset (st : Store α) (r other : HashSetRef α) : Bool :=
  (st r.set).guarded_superset (st other.set) r.guard other.guard

/-- `HashSetRef::insert`: `self.set.insert(value, &self.guard)`; the
mutation lands on the shared set object in the store. -/
def insert (st : Store α) (r : HashSetRef α) (v : α) : Bool × Store α :=
  ((( st r.set).insert v r.guard).1,
    Store.update st r.set ((st r.set).insert v r.guard).2)

/-- `HashSetRef::remove`: `self.set.remove(value, &self.guard)`. -/
def remove (st : Store α) (r : HashSetRef α) (v : α) : Bool × Store α :=
  ((( st r.set).remove v r.guard).1,
    Store.update st r.set ((st r.set).remove v r.guard).2)

/-- `HashSetRef::take`: `self.set.take(value, &self.guard)`. -/
def take (st : Store α) (r : HashSetRef α) (v : α) : Option α × Store α :=
  ((( st r.set).take v r.guard).1,
    Store.update st r.set ((st r.set).take v r.guard).2)

/-- `HashSetRef::retain`: `self.set.retain(f, &self.guard)`. -/
def retain (st : Store α) (r : HashSetRef α) (f : α → Bool) : Store α :=
  Store.update st r.set ((st r.set).retain f r.guard)

/-- `HashSetRef::clear`: `self.set.clear(&self.guard)`. -/
def clear (st : Store α) (r : HashSetRef α) : Store α :=
  Store.update st r.set ((st r.set).clear r.guard)

/-- `HashSetRef::reserve`: `self.set.reserve(additional, &self.guard)`. -/
def reserve (st : Store α) (r : HashSetRef α) (additional : Nat) : Store α :=
  Store.update st r.set ((st r.set).reserve additional r.guard)

/-- `Clone for HashSetRef` (source lines 261–271): `Self { set: &self.set,
guard: self.guard.clone() }`. -/
def clone (r : HashSetRef α) : HashSetRef α := ⟨r.set, r.guard.clone⟩

/-- `PartialEq<HashSetRef> for HashSetRef` (source lines 273–283): the body
is `self.set == other.set`, i.e. it delegates to the bare `HashSet ==
HashSet` comparison of the two underlying sets. -/
def eqRef (st : Store α) (r other : HashSetRef α) : Bool :=
  HashSet.eqSet (st r.set) (st other.set)

/-- The pair of guards that the evaluation of `r1 == r2` passes to
`guarded_eq`, read off the call structure: `eq` calls `HashSet == HashSet`,
which pins a fresh guard on each side. -/
def eqRefGuards (st : Store α) (r other : HashSetRef α) : Guard × Guard :=
  HashSet.eqSetGuards (st r.set) (st other.set)

/-- `PartialEq<HashSet> for HashSetRef` (source lines 285–294):
`self.set.guarded_eq(&other, &self.guard, &other.guard())` — the view's
own held guard paired with a fresh guard for the bare set. -/
def eqHashSet (st : Store α) (r : HashSetRef α) (other : HashSet α) : Bool :=
  (st r.set).guarded_eq other r.guard other.guard

/-- The pair of guards that the evaluation of `view == bare set` passes to
`guarded_eq`. -/
def eqHashSetGuards (st : Store α) (r : HashSetRef α) (other : HashSet α) :
    Guard × Guard :=
  (r.guard, other.guard)

end HashSetRef

/-- An operation outcome that could in principle surface a failure; the
`err` constructor is what a surfaced conditional-replace failure would be. -/
inductive OpOutcome (α : Type) where
  | ok : α → OpOutcome α
  | err : OpOutcome α
deriving DecidableEq

/-- Modelled from the spec: the retry loop of the map operation engine
around `insert` — a bin-level conditional replace that fails `fails` times
under contention before succeeding; per §4.4 "conditional-replace failures
are never surfaced to the caller — they are transparently retried inside
the operation". -/
def insertLoop {α : Type} [DecidableEq α] (fails : Nat) (s : HashSet α) (v : α)
    (g : Guard) : OpOutcome (Bool × HashSet α) :=
  match fails with
  | 0 => .ok (s.insert v g)
  | n + 1 => insertLoop n s v g

/-- Modelled from the spec: the retry loop of the map operation engine
around `remove`; a failed conditional replace is retried, never surfaced. -/
def removeLoop {α : Type} [DecidableEq α] (fails : Nat) (s : HashSet α) (v : α)
    (g : Guard) : OpOutcome (Bool × HashSet α) :=
  match fails with
  | 0 => .ok (s.remove v g)
  | n + 1 => removeLoop n s v g

end Flurry

namespace Flurry

/-- Updating a store slot with the object it already holds is a no-op. -/
theorem Store.update_self {α : Type} (st : Store α) (i : Nat) :
    Store.update st i (st i) = st := by
  funext j
  by_cases h : j = i <;> simp [Store.update, h]

/-- Searching a list for an element equal to `v` finds exactly `v` when
`v` is a member. -/
theorem find?_eq_some_self {α : Type} [DecidableEq α] {l : List α} {v : α}
    (h : v ∈ l) : l.find? (fun x => decide (x = v)) = some v := by
  induction l with
  | nil => cases h
  | cons a t ih =>
    by_cases ha : a = v
    · subst ha; simp
    · have hm : v ∈ t := by
        cases h with
        | head => exact absurd rfl ha
        | tail _ ht => exact ht
      simp [ha, ih hm]

/-- C1: every operation of the pinned view (len, is_empty, iter, contains,
get, is_disjoint, is_subset, is_superset, insert, remove, take, retain,
clear, reserve) returns exactly the result of the corresponding `HashSet`
operation invoked with the guard held by that view (the mutating ones
additionally landing the core's new object state on the shared set); the
view adds no behaviour of its own. -/
theorem view_delegates_to_core (α : Type) [DecidableEq α] (st : Store α)
    (r other : HashSetRef α) (v : α) (p : α → Bool) (n : Nat) :
    HashSetRef.len st r = (st r.set).len
    ∧ HashSetRef.is_empty st r = (st r.set).is_empty
    ∧ HashSetRef.iter st r = (st r.set).iter r.guard
    ∧ HashSetRef.contains st r v = (st r.set).contains v r.guard
    ∧ HashSetRef.get st r v = (st r.set).get v r.guard
    ∧ HashSetRef.is_disjoint st r other
        = (st r.set).guarded_disjoint (st other.set) r.guard other.guard
    ∧ HashSetRef.is_subset st r other
        = (st r.set).guarded_subset (st other.set) r.guard other.guard
    ∧ HashSetRef.is_superset st r other
        = (st r.set).guarded_superset (st other.set) r.guard other.guard
    ∧ HashSetRef.insert st r v
        = (((st r.set).insert v r.guard).1,
            Store.update st r.set ((st r.set).insert v r.guard).2)
    ∧ HashSetRef.remove st r v
        = (((st r.set).remove v r.guard).1,
            Store.update st r.set ((st r.set).remove v r.guard).2)
    ∧ HashSetRef.take st r v
        = (((st r.set).take v r.guard).1,
            Store.update st r.set ((st r.set).take v r.guard).2)
    ∧ HashSetRef.retain st r p = Store.update st r.set ((st r.set).retain p r.guard)
    ∧ HashSetRef.clear st r = Store.update st r.set ((st r.set).clear r.guard)
    ∧ HashSetRef.reserve st r n = Store.update st r.set ((st r.set).reserve n r.guard) :=
  ⟨rfl, rfl, rfl, rfl, rfl, rfl, rfl, rfl, rfl, rfl, rfl, rfl, rfl, rfl⟩

/-- Concrete two-set scenario for the equality-comparison claim: two
singleton sets, each pinned once, so each view holds guard id 0 while each
set's next fresh guard carries id 1. -/
def eStore : Store Nat := fun i => if i = 0 then ⟨[1], 0, 0⟩ else ⟨[2], 0, 0⟩

/-- First pinned view of the equality scenario. -/
def eR1 : HashSetRef Nat := (HashSet.pin eStore 0).1

/-- Store after the first pin of the equality scenario. -/
def eSt1 : Store Nat := (HashSet.pin eStore 0).2

/-- Second pinned view of the equality scenario. -/
def eR2 : HashSetRef Nat := (HashSet.pin eSt1 1).1

/-- Store after both pins of the equality scenario. -/
def eSt2 : Store Nat := (HashSet.pin eSt1 1).2

/-- C2, counterexample: at a concrete pair of pinned views the guards that
the evaluation of `r1 == r2` passes to `guarded_eq` are not the guards
held by the two views — the claim that the comparison runs under the
views' held guards is false on the code, whose `eq` body is
`self.set == other.set`. -/
theorem ref_eq_held_guards_refuted :
    ¬ (HashSetRef.eqRefGuards eSt2 eR1 eR2 = (eR1.guard, eR2.guard)) := by decide

/-- C2, amended: `r1 == r2` delegates to the bare `HashSet == HashSet`
comparison, which performs `guarded_eq` under a freshly acquired guard on
each side — never under the views' held guards (which are strictly older
than the fresh ones); only the view-versus-bare-`HashSet` comparison uses
the view's own guard, paired with a fresh guard for the bare set.  The
boolean outcome nevertheless coincides with the guarded pairwise
comparison under the held guards. -/
theorem ref_eq_uses_fresh_guards (α : Type) [DecidableEq α] (st : Store α)
    (r1 r2 : HashSetRef α) (s : HashSet α)
    (h1 : r1.guard.id < (st r1.set).nextGuard)
    (h2 : r2.guard.id < (st r2.set).nextGuard) :
    HashSetRef.eqRef st r1 r2
      = HashSet.guarded_eq (st r1.set) (st r2.set) ((st r1.set).guard) ((st r2.set).guard)
    ∧ HashSetRef.eqRefGuards st r1 r2 = ((st r1.set).guard, (st r2.set).guard)
    ∧ (HashSetRef.eqRefGuards st r1 r2).1 ≠ r1.guard
    ∧ (HashSetRef.eqRefGuards st r1 r2).2 ≠ r2.guard
    ∧ HashSetRef.eqHashSetGuards st r1 s = (r1.guard, HashSet.guard s)
    ∧ HashSetRef.eqRef st r1 r2
      = HashSet.guarded_eq (st r1.set) (st r2.set) r1.guard r2.guard := by
  refine ⟨rfl, rfl, ?_, ?_, rfl, rfl⟩
  · intro h
    have h3 := congrArg Guard.id h
    simp [HashSetRef.eqRefGuards, HashSet.eqSetGuards, HashSet.guard] at h3
    omega
  · intro h
    have h3 := congrArg Guard.id h
    simp [HashSetRef.eqRefGuards, HashSet.eqSetGuards, HashSet.guard] at h3
    omega

/-- C2, witness: the amended statement holds at the concrete two-view
scenario, whose held guards are strictly older than the sets' next fresh
guards. -/
theorem ref_eq_uses_fresh_guards_witness :
    eR1.guard.id < (eSt2 eR1.set).nextGuard
    ∧ eR2.guard.id < (eSt2 eR2.set).nextGuard
    ∧ (HashSetRef.eqRef eSt2 eR1 eR2
        = HashSet.guarded_eq (eSt2 eR1.set) (eSt2 eR2.set)
            ((eSt2 eR1.set).guard) ((eSt2 eR2.set).guard)
      ∧ HashSetRef.eqRefGuards eSt2 eR1 eR2
          = ((eSt2 eR1.set).guard, (eSt2 eR2.set).guard)
      ∧ (HashSetRef.eqRefGuards eSt2 eR1 eR2).1 ≠ eR1.guard
      ∧ (HashSetRef.eqRefGuards eSt2 eR1 eR2).2 ≠ eR2.guard
      ∧ HashSetRef.eqHashSetGuards eSt2 eR1 (eSt2 1) = (eR1.guard, HashSet.guard (eSt2 1))
      ∧ HashSetRef.eqRef eSt2 eR1 eR2
          = HashSet.guarded_eq (eSt2 eR1.set) (eSt2 eR2.set) eR1.guard eR2.guard) :=
  ⟨by decide, by decide,
    ref_eq_uses_fresh_guards Nat eSt2 eR1 eR2 (eSt2 1) (by decide) (by decide)⟩

/-- Disjointness scenario: set `A = {1, 2, 3}` at id 0 and set `B = {}` at
id 1. -/
def dStore : Store Nat := fun i => if i = 0 then ⟨[1, 2, 3], 0, 0⟩ else ⟨[], 0, 0⟩

/-- Pinned view of `A` in the disjointness scenario. -/
def dA : HashSetRef Nat := (HashSet.pin dStore 0).1

/-- Store after pinning `A`. -/
def dSt1 : Store Nat := (HashSet.pin dStore 0).2

/-- Pinned view of `B` in the disjointness scenario. -/
def dB : HashSetRef Nat := (HashSet.pin dSt1 1).1

/-- Store after pinning both sets of the disjointness scenario. -/
def dSt2 : Store Nat := (HashSet.pin dSt1 1).2

/-- Store after `B.insert(4)`. -/
def dSt3 : Store Nat := (HashSetRef.insert dSt2 dB 4).2

/-- Store after `B.insert(4)` and then `B.insert(1)`. -/
def dSt4 : Store Nat := (HashSetRef.insert dSt3 dB 1).2

/-- C3: with `A = {1, 2, 3}` and `B = {}`, `A.is_disjoint(B)` is true;
after `B.insert(4)` it is still true; after `B.insert(1)` it is false. -/
theorem disjoint_example :
    HashSetRef.is_disjoint dSt2 dA dB = true
    ∧ HashSetRef.is_disjoint dSt3 dA dB = true
    ∧ HashSetRef.is_disjoint dSt4 dA dB = false := by decide

/-- Subset scenario: `sup = {1, 2, 3}` at id 0 and `set = {}` at id 1. -/
def sStore : Store Nat := fun i => if i = 0 then ⟨[1, 2, 3], 0, 0⟩ else ⟨[], 0, 0⟩

/-- Pinned view of `sup` in the subset scenario. -/
def sSup : HashSetRef Nat := (HashSet.pin sStore 0).1

/-- Store after pinning `sup`. -/
def sSt1 : Store Nat := (HashSet.pin sStore 0).2

/-- Pinned view of `set` in the subset scenario. -/
def sSet : HashSetRef Nat := (HashSet.pin sSt1 1).1

/-- Store after pinning both sets of the subset scenario. -/
def sSt2 : Store Nat := (HashSet.pin sSt1 1).2

/-- Store after `set.insert(2)`. -/
def sSt3 : Store Nat := (HashSetRef.insert sSt2 sSet 2).2

/-- Store after `set.insert(2)` and then `set.insert(4)`. -/
def sSt4 : Store Nat := (HashSetRef.insert sSt3 sSet 4).2

/-- C4: with `sup = {1, 2, 3}` and `set = {}`, `set.is_subset(sup)` is
true; after `set.insert(2)` it is still true; after `set.insert(4)` it is
false. -/
theorem subset_example :
    HashSetRef.is_subset sSt2 sSet sSup = true
    ∧ HashSetRef.is_subset sSt3 sSet sSup = true
    ∧ HashSetRef.is_subset sSt4 sSet sSup = false := by decide

/-- C5: for a present key, calling `remove` twice in a row returns the
present-then-absent pair `(true, false)`, and `insert` of the
already-present key returns the previous-presence indication `false` and
leaves the set's size unchanged. -/
theorem remove_twice_insert_present (α : Type) [DecidableEq α] (st : Store α)
    (r : HashSetRef α) (k : α)
    (hd : (st r.set).elems.Nodup)
    (hmem : HashSetRef.contains st r k = true) :
    (HashSetRef.remove st r k).1 = true
    ∧ (HashSetRef.remove (HashSetRef.remove st r k).2 r k).1 = false
    ∧ (HashSetRef.insert st r k).1 = false
    ∧ HashSetRef.len (HashSetRef.insert st r k).2 r = HashSetRef.len st r := by
  have hk : k ∈ (st r.set).elems := by
    simpa [HashSetRef.contains, HashSet.contains] using hmem
  have hne : k ∉ (st r.set).elems.erase k := hd.not_mem_erase
  refine ⟨?_, ?_, ?_, ?_⟩
  · simp [HashSetRef.remove, HashSet.remove, hk]
  · simp [HashSetRef.remove, HashSet.remove, hk, Store.update, hne]
  · simp [HashSetRef.insert, HashSet.insert, hk]
  · simp [HashSetRef.insert, HashSet.insert, hk, HashSetRef.len, HashSet.len, Store.update]

/-- A concrete store holding one duplicate-free set `{1, 2, 3}` with one
guard already handed out, used to instantiate the universally quantified
theorems. -/
def wStore : Store Nat := fun _ => ⟨[1, 2, 3], 0, 1⟩

/-- A pinned view of the concrete set, holding guard id 0. -/
def wRef : HashSetRef Nat := ⟨0, ⟨0⟩⟩

/-- C5, witness: the remove-twice/insert-present statement at the concrete
set `{1, 2, 3}` and key 2. -/
theorem remove_twice_insert_present_witness :
    (wStore wRef.set).elems.Nodup
    ∧ HashSetRef.contains wStore wRef 2 = true
    ∧ ((HashSetRef.remove wStore wRef 2).1 = true
      ∧ (HashSetRef.remove (HashSetRef.remove wStore wRef 2).2 wRef 2).1 = false
      ∧ (HashSetRef.insert wStore wRef 2).1 = false
      ∧ HashSetRef.len (HashSetRef.insert wStore wRef 2).2 wRef
          = HashSetRef.len wStore wRef) :=
  ⟨by decide, by decide,
    remove_twice_insert_present Nat wStore wRef 2 (by decide) (by decide)⟩

/-- C6: `take` returns the stored element equal to the queried value
exactly when one is present (afterwards `contains` is false), and `none`
when no such element is present, leaving the store unchanged. -/
theorem take_present_absent (α : Type) [DecidableEq α] (st : Store α)
    (r : HashSetRef α) (v : α) (hd : (st r.set).elems.Nodup) :
    (HashSetRef.take st r v).1 = (if HashSetRef.contains st r v then some v else none)
    ∧ (HashSetRef.contains st r v = true →
        HashSetRef.contains (HashSetRef.take st r v).2 r v = false)
    ∧ (HashSetRef.contains st r v = false → (HashSetRef.take st r v).2 = st) := by
  by_cases hv : v ∈ (st r.set).elems
  · have hf : (st r.set).elems.find? (fun x => decide (x = v)) = some v :=
      find?_eq_some_self hv
    refine ⟨?_, ?_, ?_⟩
    · simp [HashSetRef.take, HashSet.take, hf, HashSetRef.contains, HashSet.contains, hv]
    · intro _
      simp [HashSetRef.take, HashSet.take, hf, HashSetRef.contains, HashSet.contains,
        Store.update, hd.not_mem_erase]
    · intro hc
      simp [HashSetRef.contains, HashSet.contains, hv] at hc
  · have hf : (st r.set).elems.find? (fun x => decide (x = v)) = none := by
      rw [List.find?_eq_none]
      intro x hx
      simp only [decide_eq_true_eq]
      intro hxv
      exact hv (hxv ▸ hx)
    refine ⟨?_, ?_, ?_⟩
    · simp [HashSetRef.take, HashSet.take, hf, HashSetRef.contains, HashSet.contains, hv]
    · intro hc
      simp [HashSetRef.contains, HashSet.contains, hv] at hc
    · intro _
      simp only [HashSetRef.take, HashSet.take, hf]
      exact Store.update_self st r.set

/-- C6, witness: the take statement at the concrete set `{1, 2, 3}` and
value 2. -/
theorem take_present_absent_witness :
    (wStore wRef.set).elems.Nodup
    ∧ ((HashSetRef.take wStore wRef 2).1
        = (if HashSetRef.contains wStore wRef 2 then some 2 else none)
      ∧ (HashSetRef.contains wStore wRef 2 = true →
          HashSetRef.contains (HashSetRef.take wStore wRef 2).2 wRef 2 = false)
      ∧ (HashSetRef.contains wStore wRef 2 = false →
          (HashSetRef.take wStore wRef 2).2 = wStore)) :=
  ⟨by decide, take_present_absent Nat wStore wRef 2 (by decide)⟩

/-- C7: the view's `iter` yields a finite duplicate-free sequence holding
exactly the elements visible through the view; `IntoIterator` produces the
very same fresh sequence; and the sequence is not restartable — `next` on
an exhausted iterator is `none`, and each `next` step permanently consumes
its element. -/
theorem iter_yields_each_once (α : Type) [DecidableEq α] (st : Store α)
    (r : HashSetRef α) (hd : (st r.set).elems.Nodup) :
    (Keys.toList (HashSetRef.iter st r)).Nodup
    ∧ (∀ x, x ∈ Keys.toList (HashSetRef.iter st r) ↔ HashSetRef.contains st r x = true)
    ∧ HashSetRef.into_iter st r = HashSetRef.iter st r
    ∧ (∀ k : Keys α, Keys.toList k = [] → Keys.next k = none)
    ∧ (∀ (k k2 : Keys α) (x : α), Keys.next k = some (x, k2) →
        Keys.toList k = x :: Keys.toList k2) := by
  refine ⟨hd, ?_, rfl, ?_, ?_⟩
  · intro x
    simp [Keys.toList, HashSetRef.iter, HashSet.iter, HashSetRef.contains, HashSet.contains]
  · rintro ⟨l⟩ h
    cases l <;> simp_all [Keys.toList, Keys.next]
  · rintro ⟨l⟩ k2 x h
    cases l with
    | nil => simp [Keys.next] at h
    | cons a t =>
      simp only [Keys.next, Option.some.injEq, Prod.mk.injEq] at h
      obtain ⟨rfl, rfl⟩ := h
      rfl

/-- C7, witness: the iteration statement at the concrete set `{1, 2, 3}`. -/
theorem iter_yields_each_once_witness :
    (wStore wRef.set).elems.Nodup
    ∧ ((Keys.toList (HashSetRef.iter wStore wRef)).Nodup
      ∧ (∀ x, x ∈ Keys.toList (HashSetRef.iter wStore wRef)
          ↔ HashSetRef.contains wStore wRef x = true)
      ∧ HashSetRef.into_iter wStore wRef = HashSetRef.iter wStore wRef
      ∧ (∀ k : Keys Nat, Keys.toList k = [] → Keys.next k = none)
      ∧ (∀ (k k2 : Keys Nat) (x : Nat), Keys.next k = some (x, k2) →
          Keys.toList k = x :: Keys.toList k2)) :=
  ⟨by decide, iter_yields_each_once Nat wStore wRef (by decide)⟩

/-- C8: no operation surfaces a failure — the retry loops around the
conditional replace return the plain operation's `ok` result for any
number of contention-induced failed attempts, lookups return
presence/absence, and the mutations' results report previous-state
information (previous absence for `insert`, previous presence for
`remove`, the previously stored element's presence for `take`). -/
theorem no_fallible_results (α : Type) [DecidableEq α] (fails : Nat)
    (s : HashSet α) (v k : α) (g : Guard) :
    insertLoop fails s v g = OpOutcome.ok (s.insert v g)
    ∧ removeLoop fails s k g = OpOutcome.ok (s.remove k g)
    ∧ (s.insert v g).1 = !(s.contains v g)
    ∧ (s.remove k g).1 = s.contains k g
    ∧ (s.take k g).1.isSome = s.contains k g := by
  refine ⟨?_, ?_, ?_, ?_, ?_⟩
  · induction fails with
    | zero => rfl
    | succ n ih => simpa [insertLoop] using ih
  · induction fails with
    | zero => rfl
    | succ n ih => simpa [removeLoop] using ih
  · by_cases hv : v ∈ s.elems <;> simp [HashSet.insert, HashSet.contains, hv]
  · by_cases hk : k ∈ s.elems <;> simp [HashSet.remove, HashSet.contains, hk]
  · by_cases hk : k ∈ s.elems
    · simp [HashSet.take, find?_eq_some_self hk, HashSet.contains, hk]
    · have hf : s.elems.find? (fun x => decide (x = k)) = none := by
        rw [List.find?_eq_none]
        intro x hx
        simp only [decide_eq_true_eq]
        intro hxk
        exact hk (hxk ▸ hx)
      simp [HashSet.take, hf, HashSet.contains, hk]

/-- C10: cloning a pinned view yields a view of the same underlying set
carrying the clone of the guard, so the clone and the original observe and
mutate the same set: insertion through the original is visible through the
clone, and removal through the clone leaves the element absent through the
original. -/
theorem clone_shares_set (α : Type) [DecidableEq α] (st : Store α)
    (r : HashSetRef α) (v : α) (hd : (st r.set).elems.Nodup) :
    (HashSetRef.clone r).set = r.set
    ∧ (HashSetRef.clone r).guard = r.guard.clone
    ∧ (∀ x, HashSetRef.contains st (HashSetRef.clone r) x = HashSetRef.contains st r x)
    ∧ HashSetRef.contains (HashSetRef.insert st r v).2 (HashSetRef.clone r) v = true
    ∧ HashSetRef.contains (HashSetRef.remove st (HashSetRef.clone r) v).2 r v = false := by
  refine ⟨rfl, rfl, fun x => rfl, ?_, ?_⟩
  · by_cases hv : v ∈ (st r.set).elems <;>
      simp [HashSetRef.insert, HashSet.insert, HashSetRef.contains, HashSet.contains,
        HashSetRef.clone, Guard.clone, Store.update, hv]
  · by_cases hv : v ∈ (st r.set).elems <;>
      simp [HashSetRef.remove, HashSet.remove, HashSetRef.contains, HashSet.contains,
        HashSetRef.clone, Guard.clone, Store.update, hv, hd.not_mem_erase]

/-- C10, witness: the clone statement at the concrete set `{1, 2, 3}` and
value 5. -/
theorem clone_shares_set_witness :
    (wStore wRef.set).elems.Nodup
    ∧ ((HashSetRef.clone wRef).set = wRef.set
      ∧ (HashSetRef.clone wRef).guard = wRef.guard.clone
      ∧ (∀ x, HashSetRef.contains wStore (HashSetRef.clone wRef) x
          = HashSetRef.contains wStore wRef x)
      ∧ HashSetRef.contains (HashSetRef.insert wStore wRef 5).2
          (HashSetRef.clone wRef) 5 = true
      ∧ HashSetRef.contains (HashSetRef.remove wStore (HashSetRef.clone wRef) 5).2
          wRef 5 = false) :=
  ⟨by decide, clone_shares_set Nat wStore wRef 5 (by decide)⟩

end Flurry
